import Mathlib

/-!
Verification development for the `mm.c` segregated-free-list allocator
(repository `bosungkim13/Malloc`).

The allocator is embedded shallowly: machine memory is a list of 64-bit
words addressed by byte offsets (the model heap base is address 0, which
is where `mm_init` places the `free_lists` sentinel array), pointers are
integers (`NULL` is 0), and every routine of `mm.c` is translated into a
state-passing function in the `Option` monad, where `none` models a
crash (a read or write of unmapped or misaligned memory, or a
non-terminating free-list traversal).  Word values are kept below
`2 ^ 64` exactly as `uintptr_t` arithmetic does.
-/

set_option maxRecDepth 20000
set_option maxHeartbeats 2000000

namespace Malloc

/-! ### Basic constants from mm.c (64-bit build: `WSIZE = sizeof(void *) = 8`) -/

def WSIZE : Nat := 8

def DSIZE : Nat := 2 * WSIZE

def CHUNKSIZE : Nat := 4096

def ALIGN : Nat := 16

def NUM : Nat := 16

/-- Modulus of a 64-bit machine word (`uintptr_t`). -/
def WORDMOD : Nat := 2 ^ 64

/-- `PACK(size, alloc)  ((size) | (alloc))`. -/
def PACK (size alloc : Nat) : Nat := size ||| alloc

/-- The size field of a boundary-tag word: `GET_SIZE` applies the mask
`~(DSIZE - 1)`, which on a 64-bit word is `2 ^ 64 - 16`. -/
def wordSize (w : Nat) : Nat := w &&& (WORDMOD - DSIZE)

/-- The allocated bit of a boundary-tag word: `GET_ALLOC` masks with `0x1`. -/
def wordAlloc (w : Nat) : Nat := w &&& 1

/-- Translation of `find_explicit` from mm.c: the size-class classifier. -/
def find_explicit (size : Nat) : Nat :=
  if size ≤ 64 then 0
  else if size ≤ 128 then 1
  else if size ≤ 256 then 2
  else if size ≤ 500 then 3
  else if size ≤ 750 then 4
  else if size ≤ 1000 then 5
  else if size ≤ 2000 then 6
  else if size ≤ 3000 then 7
  else if size ≤ 4000 then 8
  else if size ≤ 5000 then 9
  else if size ≤ 6000 then 10
  else if size ≤ 7000 then 11
  else if size ≤ 8000 then 12
  else if size ≤ 9000 then 13
  else 14

/-- The adjusted block size computed by `mm_malloc` (lines 157-161):
`asize = 2*DSIZE` when `size ≤ DSIZE`, else
`ALIGN * ((size + ALIGN - 1) / ALIGN) + DSIZE`. -/
def mallocAsize (size : Nat) : Nat :=
  if size ≤ DSIZE then 2 * DSIZE
  else ALIGN * ((size + (ALIGN - 1)) / ALIGN) + DSIZE

/-- The adjusted block size computed by `mm_realloc` (lines 221-224):
`asize = 2*DSIZE` when `size ≤ DSIZE`, else
`DSIZE * ((size + DSIZE + (DSIZE - 1)) / DSIZE)`. -/
def reallocAsize (size : Nat) : Nat :=
  if size ≤ DSIZE then 2 * DSIZE
  else DSIZE * ((size + DSIZE + (DSIZE - 1)) / DSIZE)

/-- Modelled from the spec: the adjusted-size formula stated in the
specification, `max(2*doubleword, roundUp(size, alignment) + doubleword)`.
Used only to compare the code's two rounding rules against the spec's. -/
def specAdjustedSize (n : Nat) : Nat :=
  max (2 * DSIZE) (ALIGN * ((n + ALIGN - 1) / ALIGN) + DSIZE)


/-! ### The machine-memory model

Memory is a list of 64-bit words; byte address `8*k` holds word `k`.
The model heap base is 0: the first `mem_sbrk` call of `mm_init` returns 0,
so the global `free_lists` is address 0 and (after the second `mem_sbrk`
returns 256) the global `heap_listp` is 272.  A read or write outside the
mapped region, at a negative address, or at an unaligned address is a
crash (`none`), which is how the model renders C undefined behaviour. -/

structure MMState where
  mem : List Nat
  limit : Nat
deriving DecidableEq, Repr

/-- The global `free_lists` pointer as established by `mm_init`. -/
def free_listsAddr : Int := 0

/-- The global `heap_listp` pointer as established by `mm_init`. -/
def heap_listp : Int := 272

/-- `GET(p)`: read one word. -/
def GET (s : MMState) (a : Int) : Option Nat :=
  if a < 0 ∨ a % 8 ≠ 0 then none
  else s.mem.get? (a.toNat / 8)

/-- `PUT(p, val)`: write one word (truncated to the word size). -/
def PUT (s : MMState) (a : Int) (v : Nat) : Option MMState :=
  if a < 0 ∨ a % 8 ≠ 0 then none
  else if a.toNat / 8 < s.mem.length then
    some { s with mem := s.mem.set (a.toNat / 8) (v % WORDMOD) }
  else none

/-- `GET_SIZE(p)`. -/
def GET_SIZE (s : MMState) (a : Int) : Option Nat := (GET s a).map wordSize

/-- `GET_ALLOC(p)`. -/
def GET_ALLOC (s : MMState) (a : Int) : Option Nat := (GET s a).map wordAlloc

/-- `HDRP(bp)`. -/
def HDRP (bp : Int) : Int := bp - (WSIZE : Int)

/-- `FTRP(bp)` (reads the current header to locate the footer). -/
def FTRP (s : MMState) (bp : Int) : Option Int :=
  (GET_SIZE s (HDRP bp)).map (fun sz => bp + (sz : Int) - (DSIZE : Int))

/-- `NEXT_BLKP(bp)`. -/
def NEXT_BLKP (s : MMState) (bp : Int) : Option Int :=
  (GET_SIZE s (bp - (WSIZE : Int))).map (fun sz => bp + (sz : Int))

/-- `PREV_BLKP(bp)`. -/
def PREV_BLKP (s : MMState) (bp : Int) : Option Int :=
  (GET_SIZE s (bp - (DSIZE : Int))).map (fun sz => bp - (sz : Int))

/-- `MAX(x, y)`. -/
def MAX (x y : Nat) : Nat := if x > y then x else y

/-- The growth primitive `mem_sbrk`: extends memory with zeroed words and
returns the old break, or returns `(void *)-1` leaving the state unchanged
when the configured limit would be exceeded. -/
def mem_sbrk (s : MMState) (incr : Nat) : Int × MMState :=
  if 8 * s.mem.length + incr ≤ s.limit then
    ((8 * s.mem.length : Nat), { s with mem := s.mem ++ List.replicate (incr / 8) 0 })
  else (-1, s)

/-! ### Free-list primitives and the allocator routines -/

/-- Translation of `deleteBlock`: splice a node out of its circular list
(the two statements re-read the node's fields exactly as the C does). -/
def deleteBlock (s : MMState) (bp : Int) : Option MMState := do
  let prv1 ← GET s (bp + 8)
  let nxt1 ← GET s bp
  let s1 ← PUT s (prv1 : Int) nxt1
  let nxt2 ← GET s1 bp
  let prv2 ← GET s1 (bp + 8)
  let s2 ← PUT s1 ((nxt2 : Int) + 8) prv2
  return s2

/-- Translation of `insertBlock`: push a free block at the head of the
class list selected by `find_explicit(GET_SIZE(HDRP(bp)))`. -/
def insertBlock (s : MMState) (bp : Int) : Option MMState := do
  let sz ← GET_SIZE s (HDRP bp)
  let explicit := find_explicit sz
  let head : Int := free_listsAddr + 16 * (explicit : Int)
  let temp ← GET s head
  let s1 ← PUT s head bp.toNat
  let s2 ← PUT s1 ((temp : Int) + 8) bp.toNat
  let s3 ← PUT s2 (bp + 8) head.toNat
  let s4 ← PUT s3 bp temp
  return s4

/-- Case 1 of `coalesce` (both neighbours allocated): insert as-is. -/
def coalesceCase1 (s : MMState) (bp : Int) : Option (Int × MMState) := do
  let s1 ← insertBlock s bp
  return (bp, s1)

/-- Case 2 of `coalesce` (only the successor free): absorb the next block. -/
def coalesceCase2 (s : MMState) (bp : Int) (size0 : Nat) : Option (Int × MMState) := do
  let nb1 ← NEXT_BLKP s bp
  let s1 ← deleteBlock s nb1
  let nb2 ← NEXT_BLKP s1 bp
  let inc ← GET_SIZE s1 (HDRP nb2)
  let size := size0 + inc
  let s2 ← PUT s1 (HDRP bp) (PACK size 0)
  let f ← FTRP s2 bp
  let s3 ← PUT s2 f (PACK size 0)
  let s4 ← insertBlock s3 bp
  return (bp, s4)

/-- Case 3 of `coalesce` (only the predecessor free): the predecessor
absorbs this block. -/
def coalesceCase3 (s : MMState) (bp : Int) (size0 : Nat) : Option (Int × MMState) := do
  let pb1 ← PREV_BLKP s bp
  let inc ← GET_SIZE s (HDRP pb1)
  let size := size0 + inc
  let pb2 ← PREV_BLKP s bp
  let s1 ← deleteBlock s pb2
  let f ← FTRP s1 bp
  let s2 ← PUT s1 f (PACK size 0)
  let pb3 ← PREV_BLKP s2 bp
  let s3 ← PUT s2 (HDRP pb3) (PACK size 0)
  let pb4 ← PREV_BLKP s3 bp
  let s4 ← insertBlock s3 pb4
  return (pb4, s4)

/-- Second half of case 4 of `coalesce`: re-tag the merged block starting
at the predecessor, re-tag the footer of the old successor, move `bp` to
the predecessor and insert it. -/
def coalesceCase4Tail (s2 : MMState) (bp : Int) (size : Nat) :
    Option (Int × MMState) := do
  let pb3 ← PREV_BLKP s2 bp
  let s3 ← PUT s2 (HDRP pb3) (PACK size 0)
  let nb3 ← NEXT_BLKP s3 bp
  let f3 ← FTRP s3 nb3
  let s4 ← PUT s3 f3 (PACK size 0)
  let pb4 ← PREV_BLKP s4 bp
  let s5 ← insertBlock s4 pb4
  return (pb4, s5)

/-- Case 4 of `coalesce` (both neighbours free): merge all three blocks. -/
def coalesceCase4 (s : MMState) (bp : Int) (size0 : Nat) : Option (Int × MMState) := do
  let nb1 ← NEXT_BLKP s bp
  let s1 ← deleteBlock s nb1
  let pb1 ← PREV_BLKP s1 bp
  let s2 ← deleteBlock s1 pb1
  let pb2 ← PREV_BLKP s2 bp
  let i1 ← GET_SIZE s2 (HDRP pb2)
  let nb2 ← NEXT_BLKP s2 bp
  let f2 ← FTRP s2 nb2
  let i2 ← GET_SIZE s2 f2
  let size := size0 + i1 + i2
  coalesceCase4Tail s2 bp size

/-- Translation of `coalesce`: boundary-tag coalescing, four cases, with
every address recomputed at exactly the program point where the C
recomputes it (the cases live in the four helpers above). -/
def coalesce (s : MMState) (bp : Int) : Option (Int × MMState) := do
  let size0 ← GET_SIZE s (HDRP bp)
  let pb ← PREV_BLKP s bp
  let pf ← FTRP s pb
  let prev_alloc ← GET_ALLOC s pf
  let nb ← NEXT_BLKP s bp
  let next_alloc ← GET_ALLOC s (HDRP nb)
  if prev_alloc ≠ 0 ∧ next_alloc ≠ 0 then coalesceCase1 s bp
  else if prev_alloc ≠ 0 ∧ next_alloc = 0 then coalesceCase2 s bp size0
  else if prev_alloc = 0 ∧ next_alloc ≠ 0 then coalesceCase3 s bp size0
  else coalesceCase4 s bp size0

/-- Translation of `extend_heap`. -/
def extend_heap (s : MMState) (words : Nat) : Option (Int × MMState) := do
  let size := if words % 2 = 1 then (words + 1) * WSIZE else words * WSIZE
  let r := mem_sbrk s size
  let bp := r.1
  let s1 := r.2
  if bp = -1 then
    return (0, s1)
  else
    let s2 ← PUT s1 (HDRP bp) (PACK size 0)
    let f ← FTRP s2 bp
    let s3 ← PUT s2 f (PACK size 0)
    let nb ← NEXT_BLKP s3 bp
    let s4 ← PUT s3 (HDRP nb) (PACK 0 1)
    coalesce s4 bp

/-- The inner loop of `find_fit`: walk one circular class list starting at
`temp->next`, with fuel to render a non-terminating traversal as a crash.
Result `some none` means the class is exhausted, `some (some bp)` means a
fitting block was found at `bp`. -/
def scanList (s : MMState) (sent : Int) (asize : Nat) : Nat → Int → Option (Option Int)
  | 0, _ => none
  | fuel + 1, bp =>
    if bp = sent then some none
    else
      match GET_SIZE s (HDRP bp) with
      | none => none
      | some sz =>
        if asize ≤ sz then some (some bp)
        else
          match GET s bp with
          | none => none
          | some nxt => scanList s sent asize fuel (nxt : Int)

/-- The outer loop of `find_fit`, iterating class indices `i, i+1, ..., NUM-1`
(the first argument is the number of classes still to visit).  Returns the
null pointer 0 when every remaining class is exhausted, exactly as the C
returns `NULL`. -/
def findFitLoop (s : MMState) (asize : Nat) : Nat → Nat → Option Int
  | 0, _ => some 0
  | k + 1, i =>
    let sent : Int := free_listsAddr + 16 * (i : Int)
    match GET s sent with
    | none => none
    | some start =>
      match scanList s sent asize (s.mem.length + 1) (start : Int) with
      | none => none
      | some (some bp) => some bp
      | some none => findFitLoop s asize k (i + 1)

/-- Translation of `find_fit`: start at class `find_explicit(asize)` and
scan upward. -/
def find_fit (s : MMState) (asize : Nat) : Option Int :=
  findFitLoop s asize (NUM - find_explicit asize) (find_explicit asize)

/-- Translation of `place`. -/
def place (s : MMState) (bp : Int) (asize : Nat) : Option MMState := do
  let csize ← GET_SIZE s (HDRP bp)
  if csize - asize ≥ ALIGN + DSIZE then
    let s1 ← PUT s (HDRP bp) (PACK asize 1)
    let f1 ← FTRP s1 bp
    let s2 ← PUT s1 f1 (PACK asize 1)
    let s3 ← deleteBlock s2 bp
    let nb ← NEXT_BLKP s3 bp
    let s4 ← PUT s3 (HDRP nb) (PACK (csize - asize) 0)
    let f2 ← FTRP s4 nb
    let s5 ← PUT s4 f2 (PACK (csize - asize) 0)
    insertBlock s5 nb
  else
    let s1 ← PUT s (HDRP bp) (PACK csize 1)
    let f1 ← FTRP s1 bp
    let s2 ← PUT s1 f1 (PACK csize 1)
    deleteBlock s2 bp

/-- The no-fit path of `mm_malloc`: extend the heap by
`extendsize = asize + 2*WSIZE` and place there. -/
def mallocExtend (s : MMState) (asize : Nat) : Option (Int × MMState) := do
  let extendsize := asize + 2 * WSIZE
  let er ← extend_heap s (extendsize / WSIZE)
  if er.1 = 0 then
    return (0, er.2)
  else
    let s2 ← place er.2 er.1 asize
    return (er.1, s2)

/-- Translation of `mm_malloc`.  The returned `Int` is the payload pointer,
with 0 playing the role of `NULL`. -/
def mm_malloc (s : MMState) (size : Nat) : Option (Int × MMState) := do
  if size = 0 then
    return (0, s)
  else
    let asize := mallocAsize size
    let bp ← find_fit s asize
    if bp ≠ 0 then
      let s1 ← place s bp asize
      return (bp, s1)
    else
      mallocExtend s asize

/-- Translation of `mm_free`. -/
def mm_free (s : MMState) (bp : Int) : Option MMState := do
  if bp = 0 then
    return s
  else
    let size ← GET_SIZE s (HDRP bp)
    let s1 ← PUT s (HDRP bp) (PACK size 0)
    let f ← FTRP s1 bp
    let s2 ← PUT s1 f (PACK size 0)
    let r ← coalesce s2 bp
    return r.2

/-- Word-by-word ascending copy, the model of `memcpy` for the multiples of
the word size that `mm_realloc` passes. -/
def memcpyWords : MMState → Int → Int → Nat → Option MMState
  | s, _, _, 0 => some s
  | s, dst, src, k + 1 => do
    let w ← GET s src
    let s1 ← PUT s dst w
    memcpyWords s1 (dst + 8) (src + 8) k

/-- `memcpy(dst, src, len)` for word-aligned lengths. -/
def memcpy (s : MMState) (dst src : Int) (len : Nat) : Option MMState :=
  if len % 8 = 0 then memcpyWords s dst src (len / 8) else none

/-- The in-place growth branch of `mm_realloc` (lines 241-246). -/
def reallocInPlace (s : MMState) (ptr : Int) (oldsize next_size : Nat) :
    Option (Int × MMState) := do
  let nb3 ← NEXT_BLKP s ptr
  let s1 ← deleteBlock s nb3
  let s2 ← PUT s1 (HDRP ptr) (PACK (oldsize + next_size) 1)
  let f ← FTRP s2 ptr
  let s3 ← PUT s2 f (PACK (oldsize + next_size) 1)
  return (ptr, s3)

/-- The allocate-copy-free path of `mm_realloc` (lines 249-260): allocate
`MAX(oldsize, asize) * 10`, fail (returning `NULL`) iff that allocation
fails, else copy `oldsize` bytes and free the old block. -/
def reallocCopy (s : MMState) (ptr : Int) (oldsize asize : Nat) :
    Option (Int × MMState) := do
  let mr ← mm_malloc s (MAX oldsize asize * 10)
  if mr.1 = 0 then
    return (0, mr.2)
  else
    let s2 ← memcpy mr.2 mr.1 ptr oldsize
    let s3 ← mm_free s2 ptr
    return (mr.1, s3)

/-- Translation of `mm_realloc`.  Note the faithful quirks: the header of
`ptr` is read before the null check; the next block's size and allocated
bit are read at `NEXT_BLKP(ptr)` itself (not at its header); the in-place
branch requires `oldsize + next_size ≤ asize`; the copy branch allocates
`MAX(oldsize, asize) * 10` and copies `oldsize` bytes. -/
def mm_realloc (s : MMState) (ptr : Int) (size : Nat) : Option (Int × MMState) := do
  let oldsize ← GET_SIZE s (HDRP ptr)
  let asize := reallocAsize size
  if size = 0 then
    let s1 ← mm_free s ptr
    return (0, s1)
  else if ptr = 0 then
    mm_malloc s size
  else if asize ≤ oldsize then
    return (ptr, s)
  else
    let nb1 ← NEXT_BLKP s ptr
    let next_size ← GET_SIZE s nb1
    let nb2 ← NEXT_BLKP s ptr
    let nalloc ← GET_ALLOC s nb2
    if nalloc = 0 ∧ oldsize + next_size ≤ asize then
      reallocInPlace s ptr oldsize next_size
    else
      reallocCopy s ptr oldsize asize

/-- The tail of `mm_init` after the second `mem_sbrk` succeeded at `hl`:
write padding, prologue header and footer, epilogue header (the global
`heap_listp` becomes `hl + 2*WSIZE`), then extend by `CHUNKSIZE`. -/
def mm_initRest (s : MMState) (hl : Int) : Option (Int × MMState) := do
  let s4 ← PUT s hl 0
  let s5 ← PUT s4 (hl + 8) (PACK DSIZE 1)
  let s6 ← PUT s5 (hl + 16) (PACK DSIZE 1)
  let s7 ← PUT s6 (hl + 24) (PACK 0 1)
  let er ← extend_heap s7 (CHUNKSIZE / WSIZE)
  if er.1 = 0 then
    return (-1, er.2)
  else
    return (0, er.2)

/-- Translation of `mm_init`, starting from an empty memory with the given
sbrk limit.  Returns 0 on success and -1 on failure, with the resulting
state. -/
def mm_init (limit : Nat) : Option (Int × MMState) := do
  let s0 : MMState := { mem := [], limit := limit }
  let r1 := mem_sbrk s0 (NUM * DSIZE)
  let temp := r1.1
  if temp = -1 then
    return (-1, r1.2)
  else
    let s2 ← (List.range NUM).foldlM (fun st i => do
        let sa ← PUT st (temp + 16 * (i : Int)) (temp + 16 * (i : Int)).toNat
        PUT sa (temp + 16 * (i : Int) + 8) (temp + 16 * (i : Int)).toNat) r1.2
    let r2 := mem_sbrk s2 (4 * WSIZE)
    let hl := r2.1
    if hl = -1 then
      return (-1, r2.2)
    else
      mm_initRest r2.2 hl

/-! ### The heap-walk invariant checker

This is the formalisation of the coalescing invariant of the specification
(and of the walk performed by `checkheap`): walk the block tiling from
`heap_listp`, stopping at the size-0 epilogue, and record each block's
(size, allocated) pair. -/

def walkBlocks : MMState → Int → Nat → Option (List (Nat × Nat))
  | _, _, 0 => none
  | s, bp, fuel + 1 => do
    let sz ← GET_SIZE s (HDRP bp)
    if sz = 0 then
      return []
    else
      let al ← GET_ALLOC s (HDRP bp)
      let rest ← walkBlocks s (bp + (sz : Int)) fuel
      return ((sz, al) :: rest)

/-- Does a walk contain two physically adjacent blocks that are both free? -/
def hasAdjacentFreePair : List (Nat × Nat) → Bool
  | [] => false
  | [_] => false
  | (_, a1) :: (s2, a2) :: rest =>
      (a1 == 0 && a2 == 0) || hasAdjacentFreePair ((s2, a2) :: rest)

/-- The coalescing-exhaustiveness invariant of the specification, as a
decidable check on a state. -/
def coalescingInvariant (s : MMState) : Bool :=
  match walkBlocks s heap_listp (s.mem.length + 1) with
  | none => false
  | some bs => ! hasAdjacentFreePair bs

/-! ### Concrete executions

`initLimit` is exactly the 256 + 32 + 4096 bytes that a successful
`mm_init` consumes, so the initialized heap holds one free 4096-byte block
at payload address 288 and no further growth is possible. -/

def initLimit : Nat := 4384

/-- The state after a successful `mm_init initLimit`. -/
def initState : MMState :=
  match mm_init initLimit with
  | some r => r.2
  | none => { mem := [], limit := 0 }

/-- Eight public operations from a fresh heap: five 16-byte allocations
(payloads 288, 320, 352, 384, 416), then free the third, the second and
the fourth.  The frees coalesce into one 96-byte free block at payload
320 (size class 1), physically between the live blocks 288 and 416. -/
def reallocBugPrefix : Option MMState := do
  let r0 ← mm_init initLimit
  let (_, s1) ← mm_malloc r0.2 16
  let (a, s2) ← mm_malloc s1 16
  let (b, s3) ← mm_malloc s2 16
  let (c, s4) ← mm_malloc s3 16
  let (_, s5) ← mm_malloc s4 16
  let s6 ← mm_free s5 b
  let s7 ← mm_free s6 a
  let s8 ← mm_free s7 c
  return s8

/-- The state reached by `reallocBugPrefix`. -/
def reallocBugState : MMState :=
  match reallocBugPrefix with
  | some s => s
  | none => { mem := [], limit := 0 }

/-- The nine-operation trace: `reallocBugPrefix` followed by
`mm_realloc` of the first block (payload 288, size 32) to 48 bytes. -/
def coalescingBugTrace : Option MMState := do
  let s8 ← reallocBugPrefix
  let r ← mm_realloc s8 288 48
  return r.2

/-! ### Small fixture heaps

`sentinelWords` is the 256-byte `free_lists` array with all sixteen class
lists empty.  `copyFailState` is a heap with prologue, two allocated
32-byte blocks (payloads 288 and 320) and the epilogue, with the sbrk
limit already reached; `copyState` additionally has a free 496-byte block
(payload 352, class 3) after them. -/

def sentinelWords : List Nat := (List.range 16).flatMap (fun i => [16 * i, 16 * i])

def copyFailState : MMState :=
  { mem := sentinelWords ++ [0, 17, 17, 33, 7, 7, 33, 33, 1, 0, 33, 1],
    limit := 352 }

def copyState : MMState :=
  { mem := (sentinelWords.set 6 352).set 7 352 ++
      [0, 17, 17, 33, 111, 222, 33, 33, 1, 0, 33, 496, 48, 48] ++
      List.replicate 58 0 ++ [496, 1],
    limit := 848 }

/-- Modelled from the spec: the allocate-copy-free path as the
specification words it — the same allocation request, but copying exactly
`min(oldPayloadSize, requestedSize)` bytes, where the old payload size is
`oldsize - DSIZE`.  Used only to compare the code's `reallocCopy` against
the specified copy length. -/
def reallocCopySpec (s : MMState) (ptr : Int) (oldsize asize n : Nat) :
    Option (Int × MMState) := do
  let mr ← mm_malloc s (MAX oldsize asize * 10)
  if mr.1 = 0 then
    return (0, mr.2)
  else
    let s2 ← memcpy mr.2 mr.1 ptr (min (oldsize - DSIZE) n)
    let s3 ← mm_free s2 ptr
    return (mr.1, s3)

def copyMallocState : MMState :=
  match mm_malloc copyState 480 with
  | some r => r.2
  | none => { mem := [], limit := 0 }

def copyMidState : MMState :=
  match memcpy copyMallocState 352 288 32 with
  | some s => s
  | none => { mem := [], limit := 0 }

/-- The heap used by the C7 witness: all class lists empty except class
13, which holds one free 8016-byte block at payload 288. -/
def fitState : MMState :=
  { mem := (sentinelWords.set 26 288).set 27 288 ++
      [0, 17, 17, 8016, 208, 208] ++
      List.replicate 998 0 ++ [8016, 1],
    limit := 8304 }

/-- A circular-list segment: following `next` pointers from `cur` visits
exactly the nodes of the list and then returns to the sentinel. -/
inductive ChainFrom (s : MMState) (sent : Int) : Int → List Int → Prop where
  | nil : ChainFrom s sent sent []
  | cons {cur : Int} {nxt : Nat} {rest : List Int} :
      cur ≠ sent → GET s cur = some nxt →
      ChainFrom s sent (nxt : Int) rest →
      ChainFrom s sent cur (cur :: rest)

/-- The in-memory circular list of size class `i`: the sentinel's `next`
field points at the first node of the chain. -/
def ClassChain (s : MMState) (i : Nat) (L : List Int) : Prop :=
  ∃ nx : Nat, GET s (free_listsAddr + 16 * (i : Int)) = some nx ∧
    ChainFrom s (free_listsAddr + 16 * (i : Int)) (nx : Int) L

/-! ### Claims C3, C6, C10 -/

/-- Branch evaluation lemmas for `find_explicit`, one per size class. -/
theorem find_explicit_val0 (s : Nat) (h : s ≤ 64) : find_explicit s = 0 := by
  unfold find_explicit; rw [if_pos h]

theorem find_explicit_val1 (s : Nat) (h1 : 64 < s) (h2 : s ≤ 128) :
    find_explicit s = 1 := by
  unfold find_explicit
  rw [if_neg (show ¬ s ≤ 64 by omega), if_pos h2]

theorem find_explicit_val2 (s : Nat) (h1 : 128 < s) (h2 : s ≤ 256) :
    find_explicit s = 2 := by
  unfold find_explicit
  rw [if_neg (show ¬ s ≤ 64 by omega), if_neg (show ¬ s ≤ 128 by omega),
    if_pos h2]

theorem find_explicit_val3 (s : Nat) (h1 : 256 < s) (h2 : s ≤ 500) :
    find_explicit s = 3 := by
  unfold find_explicit
  rw [if_neg (show ¬ s ≤ 64 by omega), if_neg (show ¬ s ≤ 128 by omega),
    if_neg (show ¬ s ≤ 256 by omega), if_pos h2]

theorem find_explicit_val4 (s : Nat) (h1 : 500 < s) (h2 : s ≤ 750) :
    find_explicit s = 4 := by
  unfold find_explicit
  rw [if_neg (show ¬ s ≤ 64 by omega), if_neg (show ¬ s ≤ 128 by omega),
    if_neg (show ¬ s ≤ 256 by omega), if_neg (show ¬ s ≤ 500 by omega),
    if_pos h2]

theorem find_explicit_val5 (s : Nat) (h1 : 750 < s) (h2 : s ≤ 1000) :
    find_explicit s = 5 := by
  unfold find_explicit
  rw [if_neg (show ¬ s ≤ 64 by omega), if_neg (show ¬ s ≤ 128 by omega),
    if_neg (show ¬ s ≤ 256 by omega), if_neg (show ¬ s ≤ 500 by omega),
    if_neg (show ¬ s ≤ 750 by omega), if_pos h2]

theorem find_explicit_val6 (s : Nat) (h1 : 1000 < s) (h2 : s ≤ 2000) :
    find_explicit s = 6 := by
  unfold find_explicit
  rw [if_neg (show ¬ s ≤ 64 by omega), if_neg (show ¬ s ≤ 128 by omega),
    if_neg (show ¬ s ≤ 256 by omega), if_neg (show ¬ s ≤ 500 by omega),
    if_neg (show ¬ s ≤ 750 by omega), if_neg (show ¬ s ≤ 1000 by omega),
    if_pos h2]

theorem find_explicit_val7 (s : Nat) (h1 : 2000 < s) (h2 : s ≤ 3000) :
    find_explicit s = 7 := by
  unfold find_explicit
  rw [if_neg (show ¬ s ≤ 64 by omega), if_neg (show ¬ s ≤ 128 by omega),
    if_neg (show ¬ s ≤ 256 by omega), if_neg (show ¬ s ≤ 500 by omega),
    if_neg (show ¬ s ≤ 750 by omega), if_neg (show ¬ s ≤ 1000 by omega),
    if_neg (show ¬ s ≤ 2000 by omega), if_pos h2]

theorem find_explicit_val8 (s : Nat) (h1 : 3000 < s) (h2 : s ≤ 4000) :
    find_explicit s = 8 := by
  unfold find_explicit
  rw [if_neg (show ¬ s ≤ 64 by omega), if_neg (show ¬ s ≤ 128 by omega),
    if_neg (show ¬ s ≤ 256 by omega), if_neg (show ¬ s ≤ 500 by omega),
    if_neg (show ¬ s ≤ 750 by omega), if_neg (show ¬ s ≤ 1000 by omega),
    if_neg (show ¬ s ≤ 2000 by omega), if_neg (show ¬ s ≤ 3000 by omega),
    if_pos h2]

theorem find_explicit_val9 (s : Nat) (h1 : 4000 < s) (h2 : s ≤ 5000) :
    find_explicit s = 9 := by
  unfold find_explicit
  rw [if_neg (show ¬ s ≤ 64 by omega), if_neg (show ¬ s ≤ 128 by omega),
    if_neg (show ¬ s ≤ 256 by omega), if_neg (show ¬ s ≤ 500 by omega),
    if_neg (show ¬ s ≤ 750 by omega), if_neg (show ¬ s ≤ 1000 by omega),
    if_neg (show ¬ s ≤ 2000 by omega), if_neg (show ¬ s ≤ 3000 by omega),
    if_neg (show ¬ s ≤ 4000 by omega), if_pos h2]

theorem find_explicit_val10 (s : Nat) (h1 : 5000 < s) (h2 : s ≤ 6000) :
    find_explicit s = 10 := by
  unfold find_explicit
  rw [if_neg (show ¬ s ≤ 64 by omega), if_neg (show ¬ s ≤ 128 by omega),
    if_neg (show ¬ s ≤ 256 by omega), if_neg (show ¬ s ≤ 500 by omega),
    if_neg (show ¬ s ≤ 750 by omega), if_neg (show ¬ s ≤ 1000 by omega),
    if_neg (show ¬ s ≤ 2000 by omega), if_neg (show ¬ s ≤ 3000 by omega),
    if_neg (show ¬ s ≤ 4000 by omega), if_neg (show ¬ s ≤ 5000 by omega),
    if_pos h2]

theorem find_explicit_val11 (s : Nat) (h1 : 6000 < s) (h2 : s ≤ 7000) :
    find_explicit s = 11 := by
  unfold find_explicit
  rw [if_neg (show ¬ s ≤ 64 by omega), if_neg (show ¬ s ≤ 128 by omega),
    if_neg (show ¬ s ≤ 256 by omega), if_neg (show ¬ s ≤ 500 by omega),
    if_neg (show ¬ s ≤ 750 by omega), if_neg (show ¬ s ≤ 1000 by omega),
    if_neg (show ¬ s ≤ 2000 by omega), if_neg (show ¬ s ≤ 3000 by omega),
    if_neg (show ¬ s ≤ 4000 by omega), if_neg (show ¬ s ≤ 5000 by omega),
    if_neg (show ¬ s ≤ 6000 by omega), if_pos h2]

theorem find_explicit_val12 (s : Nat) (h1 : 7000 < s) (h2 : s ≤ 8000) :
    find_explicit s = 12 := by
  unfold find_explicit
  rw [if_neg (show ¬ s ≤ 64 by omega), if_neg (show ¬ s ≤ 128 by omega),
    if_neg (show ¬ s ≤ 256 by omega), if_neg (show ¬ s ≤ 500 by omega),
    if_neg (show ¬ s ≤ 750 by omega), if_neg (show ¬ s ≤ 1000 by omega),
    if_neg (show ¬ s ≤ 2000 by omega), if_neg (show ¬ s ≤ 3000 by omega),
    if_neg (show ¬ s ≤ 4000 by omega), if_neg (show ¬ s ≤ 5000 by omega),
    if_neg (show ¬ s ≤ 6000 by omega), if_neg (show ¬ s ≤ 7000 by omega),
    if_pos h2]

theorem find_explicit_val13 (s : Nat) (h1 : 8000 < s) (h2 : s ≤ 9000) :
    find_explicit s = 13 := by
  unfold find_explicit
  rw [if_neg (show ¬ s ≤ 64 by omega), if_neg (show ¬ s ≤ 128 by omega),
    if_neg (show ¬ s ≤ 256 by omega), if_neg (show ¬ s ≤ 500 by omega),
    if_neg (show ¬ s ≤ 750 by omega), if_neg (show ¬ s ≤ 1000 by omega),
    if_neg (show ¬ s ≤ 2000 by omega), if_neg (show ¬ s ≤ 3000 by omega),
    if_neg (show ¬ s ≤ 4000 by omega), if_neg (show ¬ s ≤ 5000 by omega),
    if_neg (show ¬ s ≤ 6000 by omega), if_neg (show ¬ s ≤ 7000 by omega),
    if_neg (show ¬ s ≤ 8000 by omega), if_pos h2]

theorem find_explicit_val14 (s : Nat) (h1 : 9000 < s) : find_explicit s = 14 := by
  unfold find_explicit
  rw [if_neg (show ¬ s ≤ 64 by omega), if_neg (show ¬ s ≤ 128 by omega),
    if_neg (show ¬ s ≤ 256 by omega), if_neg (show ¬ s ≤ 500 by omega),
    if_neg (show ¬ s ≤ 750 by omega), if_neg (show ¬ s ≤ 1000 by omega),
    if_neg (show ¬ s ≤ 2000 by omega), if_neg (show ¬ s ≤ 3000 by omega),
    if_neg (show ¬ s ≤ 4000 by omega), if_neg (show ¬ s ≤ 5000 by omega),
    if_neg (show ¬ s ≤ 6000 by omega), if_neg (show ¬ s ≤ 7000 by omega),
    if_neg (show ¬ s ≤ 8000 by omega), if_neg (show ¬ s ≤ 9000 by omega)]

/-- All fifteen branch lemmas of `find_explicit` bundled as implications,
ready for linear arithmetic. -/
theorem find_explicit_cases (s : Nat) :
    (s ≤ 64 → find_explicit s = 0) ∧
    (64 < s → s ≤ 128 → find_explicit s = 1) ∧
    (128 < s → s ≤ 256 → find_explicit s = 2) ∧
    (256 < s → s ≤ 500 → find_explicit s = 3) ∧
    (500 < s → s ≤ 750 → find_explicit s = 4) ∧
    (750 < s → s ≤ 1000 → find_explicit s = 5) ∧
    (1000 < s → s ≤ 2000 → find_explicit s = 6) ∧
    (2000 < s → s ≤ 3000 → find_explicit s = 7) ∧
    (3000 < s → s ≤ 4000 → find_explicit s = 8) ∧
    (4000 < s → s ≤ 5000 → find_explicit s = 9) ∧
    (5000 < s → s ≤ 6000 → find_explicit s = 10) ∧
    (6000 < s → s ≤ 7000 → find_explicit s = 11) ∧
    (7000 < s → s ≤ 8000 → find_explicit s = 12) ∧
    (8000 < s → s ≤ 9000 → find_explicit s = 13) ∧
    (9000 < s → find_explicit s = 14) :=
  ⟨find_explicit_val0 s, find_explicit_val1 s, find_explicit_val2 s,
    find_explicit_val3 s, find_explicit_val4 s, find_explicit_val5 s,
    find_explicit_val6 s, find_explicit_val7 s, find_explicit_val8 s,
    find_explicit_val9 s, find_explicit_val10 s, find_explicit_val11 s,
    find_explicit_val12 s, find_explicit_val13 s, find_explicit_val14 s⟩

/-- C3 counterexample: the claim says `classify` maps sizes onto 16 classes
with the listed cutoffs and the top class (the 16th, index 15) absorbing all
larger sizes.  In the code the absorbing class of `find_explicit` is index
14, the 15th class, so class index 15 is never produced: already the size
9001 (larger than every cutoff) lands in class 14, not 15. -/
theorem find_explicit_c3_counterexample :
    find_explicit 9001 = 14 ∧ ¬ find_explicit 9001 = 15 := by
  constructor <;> decide

/-- C3 (amended): `find_explicit` is a pure total monotone step function on
naturals whose reachable classes are exactly the 15 indices 0..14, with the
reference cutoffs ≤64, ≤128, ≤256, ≤500, ≤750, ≤1000, ≤2000, ≤3000, ≤4000,
≤5000, ≤6000, ≤7000, ≤8000, ≤9000 and index 14 (the 15th class, not a 16th)
absorbing every larger size. -/
theorem find_explicit_c3_amended :
    Monotone find_explicit ∧
    (∀ s : Nat, find_explicit s ≤ 14) ∧
    (∀ s : Nat,
      (find_explicit s = 0 ↔ s ≤ 64) ∧
      (find_explicit s = 1 ↔ 64 < s ∧ s ≤ 128) ∧
      (find_explicit s = 2 ↔ 128 < s ∧ s ≤ 256) ∧
      (find_explicit s = 3 ↔ 256 < s ∧ s ≤ 500) ∧
      (find_explicit s = 4 ↔ 500 < s ∧ s ≤ 750) ∧
      (find_explicit s = 5 ↔ 750 < s ∧ s ≤ 1000) ∧
      (find_explicit s = 6 ↔ 1000 < s ∧ s ≤ 2000) ∧
      (find_explicit s = 7 ↔ 2000 < s ∧ s ≤ 3000) ∧
      (find_explicit s = 8 ↔ 3000 < s ∧ s ≤ 4000) ∧
      (find_explicit s = 9 ↔ 4000 < s ∧ s ≤ 5000) ∧
      (find_explicit s = 10 ↔ 5000 < s ∧ s ≤ 6000) ∧
      (find_explicit s = 11 ↔ 6000 < s ∧ s ≤ 7000) ∧
      (find_explicit s = 12 ↔ 7000 < s ∧ s ≤ 8000) ∧
      (find_explicit s = 13 ↔ 8000 < s ∧ s ≤ 9000) ∧
      (find_explicit s = 14 ↔ 9000 < s)) := by
  have hiff : ∀ s : Nat,
      (find_explicit s = 0 ↔ s ≤ 64) ∧
      (find_explicit s = 1 ↔ 64 < s ∧ s ≤ 128) ∧
      (find_explicit s = 2 ↔ 128 < s ∧ s ≤ 256) ∧
      (find_explicit s = 3 ↔ 256 < s ∧ s ≤ 500) ∧
      (find_explicit s = 4 ↔ 500 < s ∧ s ≤ 750) ∧
      (find_explicit s = 5 ↔ 750 < s ∧ s ≤ 1000) ∧
      (find_explicit s = 6 ↔ 1000 < s ∧ s ≤ 2000) ∧
      (find_explicit s = 7 ↔ 2000 < s ∧ s ≤ 3000) ∧
      (find_explicit s = 8 ↔ 3000 < s ∧ s ≤ 4000) ∧
      (find_explicit s = 9 ↔ 4000 < s ∧ s ≤ 5000) ∧
      (find_explicit s = 10 ↔ 5000 < s ∧ s ≤ 6000) ∧
      (find_explicit s = 11 ↔ 6000 < s ∧ s ≤ 7000) ∧
      (find_explicit s = 12 ↔ 7000 < s ∧ s ≤ 8000) ∧
      (find_explicit s = 13 ↔ 8000 < s ∧ s ≤ 9000) ∧
      (find_explicit s = 14 ↔ 9000 < s) := by
    intro s
    have hs := find_explicit_cases s
    omega
  refine ⟨?_, ?_, hiff⟩
  · intro a b hab
    have ha := find_explicit_cases a
    have hb := find_explicit_cases b
    omega
  · intro s
    have hs := find_explicit_cases s
    omega

/-- C6: for every requested size `n`, the adjusted size computed by
`mm_realloc` equals the one computed by `mm_malloc`, and both equal the
specification formula `max(2*doubleword, roundUp(n, alignment) + doubleword)`. -/
theorem asize_c6_realloc_eq_malloc (n : Nat) :
    reallocAsize n = mallocAsize n ∧ mallocAsize n = specAdjustedSize n := by
  unfold reallocAsize mallocAsize specAdjustedSize DSIZE ALIGN WSIZE
  split_ifs <;> simp <;> omega

/-- C10: the boundary-tag encoding round-trips.  For a size that is a
multiple of `DSIZE` and fits in one word, and an allocated flag in {0, 1},
`GET_SIZE` and `GET_ALLOC` applied to `PACK(size, alloc)` recover both
fields exactly. -/
theorem pack_c10_roundtrip (s a : Nat) (hd : DSIZE ∣ s) (hw : s < WORDMOD)
    (ha : a ≤ 1) :
    wordSize (PACK s a) = s ∧ wordAlloc (PACK s a) = a := by
  obtain ⟨t, rfl⟩ := hd
  have hDS : DSIZE = 2 ^ 4 := by decide
  have hw2 : 2 ^ 4 * t < 2 ^ 64 := by
    rw [← hDS]; exact hw
  have ht60 : t < 2 ^ 60 := by omega
  have hor : PACK (DSIZE * t) a = 2 ^ 4 * t ||| a := by
    unfold PACK; rw [hDS]
  constructor
  · rw [hor]
    unfold wordSize
    have hmask : WORDMOD - DSIZE = 2 ^ 4 * (2 ^ 60 - 1) := by decide
    rw [hmask, hDS]
    apply Nat.eq_of_testBit_eq
    intro i
    rw [Nat.testBit_land, Nat.testBit_lor, Nat.testBit_mul_pow_two,
      Nat.testBit_mul_pow_two, Nat.testBit_two_pow_sub_one]
    by_cases h4 : i ≥ 4
    · have hai : Nat.testBit a i = false := by
        apply Nat.testBit_lt_two_pow
        calc a < 2 ^ 1 := by omega
        _ ≤ 2 ^ i := Nat.pow_le_pow_right (by omega) (by omega)
      by_cases h60 : i - 4 < 60
      · simp [h4, h60, hai]
      · have htf : Nat.testBit t (i - 4) = false := by
          apply Nat.testBit_lt_two_pow
          calc t < 2 ^ 60 := ht60
          _ ≤ 2 ^ (i - 4) := Nat.pow_le_pow_right (by omega) (by omega)
        simp [h4, h60, hai, htf]
    · simp [h4]
  · rw [hor]
    unfold wordAlloc
    rw [Nat.and_one_is_mod,
      ← Nat.mul_add_lt_is_or (show a < 2 ^ 4 by omega) t]
    omega

/-- Witness for C10 at the concrete input `size = 4096`, `alloc = 1`. -/
theorem pack_c10_roundtrip_witness :
    (DSIZE ∣ 4096 ∧ 4096 < WORDMOD ∧ 1 ≤ 1) ∧
    wordSize (PACK 4096 1) = 4096 ∧ wordAlloc (PACK 4096 1) = 1 :=
  ⟨by refine ⟨⟨256, by decide⟩, by decide, le_refl 1⟩,
    pack_c10_roundtrip 4096 1 ⟨256, by decide⟩ (by decide) (le_refl 1)⟩
/-! ### Claims C1, C2, C4 -/

/-- C1 (code bug evidence): in `reallocBugState` the live pointer 288 has
block size 32 and its physically next block (payload 320) is free with
size 96, so for request 48 (adjusted size 64) the spec's in-place-growth
premise `32 + 96 = 128 ≥ 64` holds and the claim requires the block to
grow to the combined size 128.  The code instead reads the next block's
metadata at `NEXT_BLKP(ptr)` (the free block's payload, which holds the
class-1 sentinel pointer 16) rather than at `HDRP(NEXT_BLKP(ptr))`, and
tests `oldsize + next_size ≤ asize` rather than `≥`, so it "grows" the
block to `32 + 16 = 48 < 128` bytes, leaving a 64-byte tail of the free
block outside any block and outside the free-list index. -/
theorem realloc_c1_in_place_bug :
    GET_SIZE reallocBugState (HDRP 288) = some 32 ∧
    GET_ALLOC reallocBugState (HDRP 288) = some 1 ∧
    NEXT_BLKP reallocBugState 288 = some 320 ∧
    GET_SIZE reallocBugState (HDRP 320) = some 96 ∧
    GET_ALLOC reallocBugState (HDRP 320) = some 0 ∧
    reallocAsize 48 = 64 ∧
    (mm_realloc reallocBugState 288 48).map
      (fun r => (r.1, GET_SIZE r.2 (HDRP 288))) = some (288, some 48) := by
  refine ⟨?_, ?_, ?_, ?_, ?_, ?_, ?_⟩ <;> rfl

/-- C2 (code bug evidence): `mm_realloc(NULL, n)` evaluates
`GET_SIZE(HDRP(ptr))` at line 219 before the `ptr == NULL` check at line
232, dereferencing address `NULL - WSIZE`.  In the model this read of
unmapped memory is a crash, so `resize(null, 5)` diverges from
`allocate(5)`, which succeeds and returns payload 288. -/
theorem realloc_c2_null_read :
    (mm_init initLimit).map Prod.fst = some 0 ∧
    HDRP 0 = -8 ∧
    GET initState (-8) = none ∧
    mm_realloc initState 0 5 = none ∧
    (mm_malloc initState 5).map Prod.fst = some 288 := by
  refine ⟨?_, ?_, ?_, ?_, ?_⟩ <;> rfl

/-- C4 (code bug evidence): after the nine public operations of
`coalescingBugTrace` (all of which complete), the heap walk from
`heap_listp` is prologue, the reallocated 48-byte block, then a fake
16-byte free block followed by two stale 32-byte free blocks — three
physically adjacent free blocks — then the live fifth block and the
free remainder.  The coalescing invariant is violated even though the
trace used only `init`, `allocate`, `release` and `resize`. -/
theorem coalescing_c4_violation :
    coalescingBugTrace.map
      (fun t => walkBlocks t heap_listp (t.mem.length + 1)) =
      some (some [(16, 1), (48, 1), (16, 0), (32, 0), (32, 0), (32, 1), (3936, 0)]) ∧
    coalescingBugTrace.map coalescingInvariant = some false := by
  constructor <;> rfl

/-! ### Option-bind helpers for unfolding the monadic translations -/

theorem optBindSome {a : Type} {b : Type} (x : a) (f : a → Option b) :
    (Bind.bind (some x) f) = f x := rfl

theorem optBindNone {a : Type} {b : Type} (f : a → Option b) :
    (Bind.bind (none : Option a) f) = none := rfl

/-! ### Claim C8 -/

/-- C8: `allocate(0)` returns null and leaves the state completely
unchanged, and whenever the header word of `p` is readable (in particular
whenever `p` is live), `resize(p, 0)` performs exactly the state change of
`release(p)` and returns null. -/
theorem zero_size_c8 :
    (∀ s : MMState, mm_malloc s 0 = some (0, s)) ∧
    (∀ (s : MMState) (p : Int) (w : Nat), GET s (HDRP p) = some w →
      mm_realloc s p 0 = (mm_free s p).map (fun s2 => ((0 : Int), s2))) := by
  constructor
  · intro s
    rfl
  · intro s p w h
    have h2 : GET_SIZE s (HDRP p) = some (wordSize w) := by
      unfold GET_SIZE
      rw [h]
      rfl
    unfold mm_realloc
    rw [h2]
    rcases hf : mm_free s p with _ | s2 <;> rfl

/-- Witness for C8 at the initialized heap and the pointer 288 (the one
free block, whose header word is 4096). -/
theorem zero_size_c8_witness :
    GET initState (HDRP 288) = some 4096 ∧
    mm_malloc initState 0 = some (0, initState) ∧
    mm_realloc initState 288 0 =
      (mm_free initState 288).map (fun s2 => ((0 : Int), s2)) :=
  ⟨by rfl, zero_size_c8.1 initState,
    zero_size_c8.2 initState 288 4096 (by rfl)⟩

/-! ### The allocate-copy-free path of `mm_realloc` (claims C9 and C5) -/

/-- Entry conditions of the copy path: a non-zero request on a non-null
pointer whose adjusted size exceeds the current block size, where the
(wrong-offset) next-block test of line 240 fails.  Under them `mm_realloc`
is exactly `reallocCopy`. -/
theorem mm_realloc_copy_path (s : MMState) (p : Int) (n oldw u : Nat)
    (hn : n ≠ 0) (hp : p ≠ 0)
    (hold : GET s (HDRP p) = some oldw)
    (hgrow : ¬ reallocAsize n ≤ wordSize oldw)
    (hu : GET s (p + (wordSize oldw : Int)) = some u)
    (hcond : ¬ (wordAlloc u = 0 ∧ wordSize oldw + wordSize u ≤ reallocAsize n)) :
    mm_realloc s p n = reallocCopy s p (wordSize oldw) (reallocAsize n) := by
  have e1 : GET_SIZE s (HDRP p) = some (wordSize oldw) := by
    unfold GET_SIZE; rw [hold]; rfl
  have e2 : NEXT_BLKP s p = some (p + (wordSize oldw : Int)) := by
    unfold NEXT_BLKP GET_SIZE
    rw [show GET s (p - ((WSIZE : Nat) : Int)) = some oldw from hold]
    rfl
  have e3 : GET_SIZE s (p + (wordSize oldw : Int)) = some (wordSize u) := by
    unfold GET_SIZE; rw [hu]; rfl
  have e4 : GET_ALLOC s (p + (wordSize oldw : Int)) = some (wordAlloc u) := by
    unfold GET_ALLOC; rw [hu]; rfl
  unfold mm_realloc
  rw [e1]
  simp only [optBindSome]
  rw [if_neg hn, if_neg hp, if_neg hgrow]
  rw [e2]
  simp only [optBindSome]
  rw [e3]
  simp only [optBindSome]
  rw [e4]
  simp only [optBindSome]
  rw [if_neg hcond]

/-- The adjusted size of `mm_malloc` is always a positive multiple of 16. -/
theorem mallocAsize_dvd16 (n : Nat) : 16 ∣ mallocAsize n := by
  unfold mallocAsize ALIGN DSIZE WSIZE
  split_ifs <;> omega

theorem mallocAsize_ge32 (n : Nat) : 32 ≤ mallocAsize n := by
  unfold mallocAsize ALIGN DSIZE WSIZE
  split_ifs <;> omega

theorem mm_malloc_exhausted (s : MMState) (n : Nat) (hn : n ≠ 0)
    (hnofit : find_fit s (mallocAsize n) = some 0)
    (hsbrk : s.limit < 8 * s.mem.length + (mallocAsize n + 2 * WSIZE)) :
    mm_malloc s n = some (0, s) := by
  have h16 := mallocAsize_dvd16 n
  unfold mm_malloc
  rw [if_neg hn]
  dsimp only
  rw [hnofit]
  simp only [optBindSome]
  rw [if_neg (show ¬ ((0 : Int) ≠ 0) from by simp)]
  unfold mallocExtend extend_heap
  dsimp only
  rw [if_neg (show ¬ ((mallocAsize n + 2 * WSIZE) / WSIZE % 2 = 1) from by
    unfold WSIZE
    omega)]
  unfold mem_sbrk
  rw [if_neg (show ¬ (8 * s.mem.length + (mallocAsize n + 2 * WSIZE) / WSIZE * WSIZE ≤ s.limit) from by
    unfold WSIZE
    unfold WSIZE at hsbrk
    omega)]
  rw [if_pos rfl]
  simp only [optBindSome]
  rfl

/-- C9: in the allocate-copy-free path, if the new allocation fails
(returns null, leaving some state `sm`), `resize` returns null with
exactly that state — performing no further modification, so the old block
is exactly as the failed allocation left it; and if the new allocation
succeeds, a completed `resize` returns the new non-null pointer.  Moreover when the
allocation fails through exhaustion (no fit and the growth primitive
cannot supply more memory — the failure mode of the design), the state,
and hence the old block's content and metadata, is completely
unchanged. -/
theorem realloc_c9_error_path (s : MMState) (p : Int) (n oldw u : Nat)
    (hn : n ≠ 0) (hp : p ≠ 0)
    (hold : GET s (HDRP p) = some oldw)
    (hgrow : ¬ reallocAsize n ≤ wordSize oldw)
    (hu : GET s (p + (wordSize oldw : Int)) = some u)
    (hcond : ¬ (wordAlloc u = 0 ∧ wordSize oldw + wordSize u ≤ reallocAsize n)) :
    (∀ sm, mm_malloc s (MAX (wordSize oldw) (reallocAsize n) * 10) = some (0, sm) →
      mm_realloc s p n = some (0, sm)) ∧
    (∀ np sm r, mm_malloc s (MAX (wordSize oldw) (reallocAsize n) * 10) = some (np, sm) →
      np ≠ 0 → mm_realloc s p n = some r → r.1 = np ∧ r.1 ≠ 0) ∧
    (find_fit s (mallocAsize (MAX (wordSize oldw) (reallocAsize n) * 10)) = some 0 →
      s.limit < 8 * s.mem.length +
        (mallocAsize (MAX (wordSize oldw) (reallocAsize n) * 10) + 2 * WSIZE) →
      mm_realloc s p n = some (0, s)) := by
  have hcp := mm_realloc_copy_path s p n oldw u hn hp hold hgrow hu hcond
  refine ⟨?_, ?_, ?_⟩
  · intro sm hmal
    rw [hcp]
    unfold reallocCopy
    rw [hmal]
    simp only [optBindSome]
    rfl
  · intro np sm r hmal hnp hr
    rw [hcp] at hr
    unfold reallocCopy at hr
    rw [hmal] at hr
    simp only [optBindSome] at hr
    rw [if_neg (show ¬ ((np, sm).1 = 0) from hnp)] at hr
    rcases hmc : memcpy (np, sm).2 (np, sm).1 p (wordSize oldw) with _ | s2
    · rw [hmc] at hr
      exact absurd hr (by simp [optBindNone])
    · rw [hmc] at hr
      simp only [optBindSome] at hr
      rcases hff : mm_free s2 p with _ | s3
      · rw [hff] at hr
        exact absurd hr (by simp [optBindNone])
      · rw [hff] at hr
        simp only [optBindSome] at hr
        have hr2 : ((np, sm).1, s3) = r := by
          exact Option.some.inj hr
        constructor
        · rw [← hr2]
        · rw [← hr2]
          exact hnp
  · intro hb1 hb2
    have hbig : MAX (wordSize oldw) (reallocAsize n) * 10 ≠ 0 := by
      have h32 : 32 ≤ reallocAsize n := by
        unfold reallocAsize DSIZE WSIZE
        split_ifs <;> omega
      unfold MAX
      split_ifs <;> omega
    have hmal := mm_malloc_exhausted s (MAX (wordSize oldw) (reallocAsize n) * 10)
      hbig hb1 hb2
    rw [hcp]
    unfold reallocCopy
    rw [hmal]
    simp only [optBindSome]
    rfl

/-- Witness for C9: on `copyFailState` the request `resize(288, 48)` takes
the copy path, the inner allocation of `MAX(32, 64) * 10 = 640` bytes
fails (the sbrk limit is reached), the failed allocation leaves the state
unchanged, and `resize` returns null with the state — hence the old block
— untouched. -/
theorem realloc_c9_error_path_witness :
    mm_malloc copyFailState 640 = some (0, copyFailState) ∧
    mm_realloc copyFailState 288 48 = some (0, copyFailState) :=
  ⟨by rfl,
    (realloc_c9_error_path copyFailState 288 48 33 1 (by decide) (by decide)
      (by rfl) (by decide) (by rfl) (by decide)).2.2 (by rfl) (by decide)⟩


/-! ### Frame lemmas for the word store and `memcpyWords` -/

/-- A successful `PUT` acts on a valid aligned in-range address and
replaces exactly one word. -/
theorem PUT_bounds (s s2 : MMState) (a : Int) (v : Nat) (h : PUT s a v = some s2) :
    ¬ (a < 0 ∨ a % 8 ≠ 0) ∧ a.toNat / 8 < s.mem.length ∧
    s2 = { s with mem := s.mem.set (a.toNat / 8) (v % WORDMOD) } := by
  unfold PUT at h
  by_cases h1 : a < 0 ∨ a % 8 ≠ 0
  · rw [if_pos h1] at h; simp at h
  · rw [if_neg h1] at h
    by_cases h2 : a.toNat / 8 < s.mem.length
    · rw [if_pos h2] at h
      exact ⟨h1, h2, (Option.some.inj h).symm⟩
    · rw [if_neg h2] at h; simp at h

theorem PUT_GET_same (s s2 : MMState) (a : Int) (v : Nat)
    (h : PUT s a v = some s2) : GET s2 a = some (v % WORDMOD) := by
  obtain ⟨h1, h2, rfl⟩ := PUT_bounds s s2 a v h
  unfold GET
  rw [if_neg h1]
  simp [List.getElem?_set_self h2]

theorem PUT_GET_ne (s s2 : MMState) (a b : Int) (v : Nat)
    (h : PUT s a v = some s2) (hne : b ≠ a) : GET s2 b = GET s b := by
  obtain ⟨h1, h2, rfl⟩ := PUT_bounds s s2 a v h
  unfold GET
  by_cases hb : b < 0 ∨ b % 8 ≠ 0
  · rw [if_pos hb, if_pos hb]
  · rw [if_neg hb, if_neg hb]
    have hidx : a.toNat / 8 ≠ b.toNat / 8 := by
      push_neg at h1 hb
      intro he
      apply hne
      omega
    simp [List.getElem?_set_ne hidx]

/-- A completed non-overlapping `memcpyWords` writes the source words
(truncated to the word size) at the destination and touches nothing
else. -/
theorem memcpyWords_spec (k : Nat) :
    ∀ (s s2 : MMState) (dst src : Int),
      memcpyWords s dst src k = some s2 →
      (dst + 8 * (k : Int) ≤ src ∨ src + 8 * (k : Int) ≤ dst) →
      (∀ i : Nat, i < k → GET s2 (dst + 8 * (i : Int)) =
          (GET s (src + 8 * (i : Int))).map (fun w => w % WORDMOD)) ∧
      (∀ a : Int, (∀ i : Nat, i < k → a ≠ dst + 8 * (i : Int)) →
          GET s2 a = GET s a) := by
  induction k with
  | zero =>
    intro s s2 dst src h _
    have h2 : s = s2 := by
      unfold memcpyWords at h
      exact Option.some.inj h
    subst h2
    exact ⟨fun i hi => absurd hi (by omega), fun a _ => rfl⟩
  | succ k ih =>
    intro s s2 dst src h hsep
    unfold memcpyWords at h
    rcases hw : GET s src with _ | w
    · rw [hw, optBindNone] at h; simp at h
    · rw [hw] at h
      simp only [optBindSome] at h
      rcases hput : PUT s dst w with _ | s1
      · rw [hput, optBindNone] at h; simp at h
      · rw [hput] at h
        simp only [optBindSome] at h
        have hsep2 : (dst + 8) + 8 * (k : Int) ≤ (src + 8) ∨
            (src + 8) + 8 * (k : Int) ≤ (dst + 8) := by
          rcases hsep with hs | hs
          · left; push_cast at hs ⊢; omega
          · right; push_cast at hs ⊢; omega
        obtain ⟨ihcopy, ihframe⟩ := ih s1 s2 (dst + 8) (src + 8) h hsep2
        constructor
        · intro i hi
          cases i with
          | zero =>
            have hfr : GET s2 (dst + 8 * ((0 : Nat) : Int)) =
                GET s1 (dst + 8 * ((0 : Nat) : Int)) := by
              apply ihframe
              intro j hj
              push_cast
              omega
            rw [hfr]
            have hz : (dst + 8 * ((0 : Nat) : Int)) = dst := by push_cast; ring
            rw [hz, PUT_GET_same s s1 dst w hput]
            have hz2 : src + 8 * ((0 : Nat) : Int) = src := by push_cast; ring
            rw [hz2, hw]
            rfl
          | succ j =>
            have hreindex : (dst + 8 * ((j + 1 : Nat) : Int)) =
                (dst + 8) + 8 * ((j : Nat) : Int) := by
              push_cast; ring
            rw [hreindex, ihcopy j (by omega)]
            have hne : (src + 8) + 8 * ((j : Nat) : Int) ≠ dst := by
              rcases hsep with hs | hs <;> (push_cast at hs ⊢; omega)
            rw [PUT_GET_ne s s1 dst _ w hput hne]
            have hsrc : (src + 8) + 8 * ((j : Nat) : Int) =
                src + 8 * ((j + 1 : Nat) : Int) := by
              push_cast; ring
            rw [hsrc]
        · intro a ha
          have h1 : GET s2 a = GET s1 a := by
            apply ihframe
            intro j hj
            have hj2 := ha (j + 1) (by omega)
            intro he
            apply hj2
            rw [he]; push_cast; ring
          rw [h1]
          apply PUT_GET_ne s s1 dst a w hput
          have h0 := ha 0 (by omega)
          intro he
          apply h0
          rw [he]; push_cast; ring

/-! ### Claim C5 -/

/-- C5 counterexample: on `copyState`, `resize(288, 17)` takes the
allocate-copy-free path with `oldsize = 32`, old payload size 16 and
`min(oldPayloadSize, requestedSize) = min(16, 17) = 16`, so under the
claim exactly 16 bytes reach the new block.  The code instead copies
`oldsize = 32` bytes: the new payload's word at offset 16 receives the old
block's footer word 33, where the spec-faithful copy (`reallocCopySpec`)
leaves the reused free block's previous content 0. -/
theorem realloc_c5_counterexample :
    (mm_realloc copyState 288 17).map (fun r => (r.1, GET r.2 368)) =
      some (352, some 33) ∧
    (reallocCopySpec copyState 288 32 48 17).map (fun r => (r.1, GET r.2 368)) =
      some (352, some 0) ∧
    GET copyState 368 = some 0 ∧
    min (32 - DSIZE) 17 = 16 := by
  refine ⟨?_, ?_, ?_, ?_⟩ <;> rfl

/-- C5 (amended): in the allocate-copy-free path with a successful inner
allocation at `np`, the code copies the full `oldsize` bytes starting at
the old payload pointer — the old payload plus the old footer and the
next block's header, not the claimed `min(oldPayloadSize, n)` bytes —
then releases the old block and returns the new pointer `np`. -/
theorem realloc_c5_amended (s : MMState) (p np : Int) (n oldw u : Nat)
    (sm s2 : MMState)
    (hn : n ≠ 0) (hp : p ≠ 0)
    (hold : GET s (HDRP p) = some oldw)
    (hgrow : ¬ reallocAsize n ≤ wordSize oldw)
    (hu : GET s (p + (wordSize oldw : Int)) = some u)
    (hcond : ¬ (wordAlloc u = 0 ∧ wordSize oldw + wordSize u ≤ reallocAsize n))
    (hmal : mm_malloc s (MAX (wordSize oldw) (reallocAsize n) * 10) = some (np, sm))
    (hnp : np ≠ 0)
    (hcpy : memcpy sm np p (wordSize oldw) = some s2)
    (hsep : np + (wordSize oldw : Int) ≤ p ∨ p + (wordSize oldw : Int) ≤ np) :
    mm_realloc s p n = (mm_free s2 p).map (fun s3 => (np, s3)) ∧
    (∀ i : Nat, i < wordSize oldw / 8 →
      GET s2 (np + 8 * (i : Int)) =
        (GET sm (p + 8 * (i : Int))).map (fun w => w % WORDMOD)) := by
  have hcp := mm_realloc_copy_path s p n oldw u hn hp hold hgrow hu hcond
  have hmod : wordSize oldw % 8 = 0 := by
    by_contra hc
    unfold memcpy at hcpy
    rw [if_neg hc] at hcpy
    simp at hcpy
  have hmw : memcpyWords sm np p (wordSize oldw / 8) = some s2 := by
    unfold memcpy at hcpy
    rwa [if_pos hmod] at hcpy
  constructor
  · rw [hcp]
    unfold reallocCopy
    rw [hmal]
    simp only [optBindSome]
    rw [if_neg (show ¬ ((np, sm).1 = 0) from hnp)]
    rw [show memcpy (np, sm).2 (np, sm).1 p (wordSize oldw) = some s2 from hcpy]
    simp only [optBindSome]
    rcases hf : mm_free s2 p with _ | s3 <;> rfl
  · have hsep2 : np + 8 * ((wordSize oldw / 8 : Nat) : Int) ≤ p ∨
        p + 8 * ((wordSize oldw / 8 : Nat) : Int) ≤ np := by
      have h8 : 8 * ((wordSize oldw / 8 : Nat) : Int) = (wordSize oldw : Int) := by
        omega
      rw [h8]
      exact hsep
    exact (memcpyWords_spec (wordSize oldw / 8) sm s2 np p hmw hsep2).1

/-- Witness for the amended C5 on `copyState`: the new block is 352, the
copy lands beyond the 16-byte minimum (word index 2 of the new payload
equals word index 2 of the old block), the old block is freed and 352 is
returned. -/
theorem realloc_c5_amended_witness :
    mm_realloc copyState 288 17 =
      (mm_free copyMidState 288).map (fun s3 => ((352 : Int), s3)) ∧
    GET copyMidState (352 + 8 * ((2 : Nat) : Int)) =
      (GET copyMallocState (288 + 8 * ((2 : Nat) : Int))).map (fun w => w % WORDMOD) := by
  have h := realloc_c5_amended copyState 288 352 17 33 1 copyMallocState copyMidState
    (by decide) (by decide) (by rfl) (by decide) (by rfl) (by decide)
    (by rfl) (by decide) (by rfl) (by decide)
  exact ⟨h.1, h.2 2 (by decide)⟩

/-! ### Claim C7 -/

/-- The inner loop of `find_fit` on a well-formed circular list returns
the first node whose stored size is at least `asize`. -/
theorem scanList_finds (s : MMState) (sent : Int) (asize : Nat) (szf : Int → Nat) :
    ∀ (L : List Int) (cur : Int) (fuel : Nat),
      ChainFrom s sent cur L →
      (∀ bp ∈ L, GET_SIZE s (HDRP bp) = some (szf bp)) →
      L.length < fuel →
      scanList s sent asize fuel cur =
        some (L.find? (fun bp => decide (asize ≤ szf bp))) := by
  intro L
  induction L with
  | nil =>
    intro cur fuel hch hsz hlen
    cases hch with
    | nil =>
      cases fuel with
      | zero => omega
      | succ f =>
        simp [scanList]
  | cons bp rest ih =>
    intro cur fuel hch hsz hlen
    cases hch with
    | cons hne hget hrest =>
      cases fuel with
      | zero => simp at hlen
      | succ f =>
        have hszbp : GET_SIZE s (HDRP bp) = some (szf bp) :=
          hsz bp (List.mem_cons_self bp rest)
        by_cases hfit : asize ≤ szf bp
        · simp [scanList, if_neg hne, hszbp, hfit]
        · have hrec := ih _ f hrest
            (fun q hq => hsz q (List.mem_cons_of_mem bp hq)) (by simpa using hlen)
          simp [scanList, if_neg hne, hszbp, hfit, hget, hrec]

/-- The outer loop of `find_fit` returns the first fitting block of the
classes `i, i+1, ..., NUM-1` in order (0 when there is none). -/
theorem findFitLoop_finds (s : MMState) (asize : Nat) (szf : Int → Nat)
    (L : Nat → List Int) :
    ∀ (k i : Nat), i + k = NUM →
      (∀ j, i ≤ j → j < NUM → ClassChain s j (L j)) →
      (∀ j, i ≤ j → j < NUM → ∀ bp ∈ L j, GET_SIZE s (HDRP bp) = some (szf bp)) →
      (∀ j, i ≤ j → j < NUM → (L j).length < s.mem.length + 1) →
      findFitLoop s asize k i =
        some ((((List.range' i k).flatMap L).find?
          (fun bp => decide (asize ≤ szf bp))).getD 0) := by
  intro k
  induction k with
  | zero =>
    intro i hik hch hsz hlen
    simp [findFitLoop]
  | succ k ih =>
    intro i hik hch hsz hlen
    obtain ⟨nx, hg, hchain⟩ := hch i (le_refl i) (by omega)
    have hscan := scanList_finds s (free_listsAddr + 16 * (i : Int)) asize szf
      (L i) (nx : Int) (s.mem.length + 1) hchain
      (hsz i (le_refl i) (by omega)) (hlen i (le_refl i) (by omega))
    have hrec := ih (i + 1) (by omega)
      (fun j h1 h2 => hch j (by omega) h2)
      (fun j h1 h2 => hsz j (by omega) h2)
      (fun j h1 h2 => hlen j (by omega) h2)
    have hrange : List.range' i (k + 1) = i :: List.range' (i + 1) k :=
      List.range'_succ i k 1
    rcases hfind : (L i).find? (fun bp => decide (asize ≤ szf bp)) with _ | bp
    · rw [hfind] at hscan
      simp [findFitLoop, hg, hscan, hrec, hrange, hfind]
    · rw [hfind] at hscan
      simp [findFitLoop, hg, hscan, hrange, hfind]

/-- C7: when every size class from `find_explicit asize` upward is a
well-formed circular list (`ClassChain`) whose nodes carry the stored
sizes `szf`, `find_fit` returns exactly the first block of the
concatenation of those class lists, in increasing class order, whose
stored size is at least `asize` — and the null pointer 0 exactly when no
such block exists in any class from the starting class upward. -/
theorem find_fit_c7 (s : MMState) (asize : Nat) (szf : Int → Nat)
    (L : Nat → List Int)
    (hch : ∀ j, find_explicit asize ≤ j → j < NUM → ClassChain s j (L j))
    (hsz : ∀ j, find_explicit asize ≤ j → j < NUM →
      ∀ bp ∈ L j, GET_SIZE s (HDRP bp) = some (szf bp))
    (hlen : ∀ j, find_explicit asize ≤ j → j < NUM →
      (L j).length < s.mem.length + 1) :
    find_fit s asize =
      some ((((List.range' (find_explicit asize)
          (NUM - find_explicit asize)).flatMap L).find?
        (fun bp => decide (asize ≤ szf bp))).getD 0) := by
  have hle : find_explicit asize ≤ 14 := by
    have := find_explicit_cases asize
    omega
  have hNUM : NUM = 16 := rfl
  unfold find_fit
  exact findFitLoop_finds s asize szf L (NUM - find_explicit asize)
    (find_explicit asize) (by omega) hch hsz hlen

/-- Witness for C7 on `fitState`: the request 8001 starts at class 13,
whose single 8016-byte block fits, so `find_fit` returns its payload 288. -/
theorem find_fit_c7_witness :
    find_fit fitState 8001 = some 288 := by
  have h := find_fit_c7 fitState 8001
    (fun bp => if bp = 288 then 8016 else 0)
    (fun j => if j = 13 then [288] else [])
    ?hch ?hsz ?hlen
  · exact h.trans (by rfl)
  case hch =>
    intro j h1 h2
    have h1' : 13 ≤ j := by
      have hfe : find_explicit 8001 = 13 := by rfl
      omega
    have h2' : j < 16 := h2
    interval_cases j
    · refine ⟨288, by rfl, ?_⟩
      have hc : ((288 : Nat) : Int) ≠ free_listsAddr + 16 * ((13 : Nat) : Int) := by decide
      refine ChainFrom.cons hc (by rfl) ?_
      have hc2 : ((208 : Nat) : Int) = free_listsAddr + 16 * ((13 : Nat) : Int) := by decide
      rw [hc2]
      exact ChainFrom.nil
    · refine ⟨224, by rfl, ?_⟩
      have hc : ((224 : Nat) : Int) = free_listsAddr + 16 * ((14 : Nat) : Int) := by decide
      rw [hc]
      exact ChainFrom.nil
    · refine ⟨240, by rfl, ?_⟩
      have hc : ((240 : Nat) : Int) = free_listsAddr + 16 * ((15 : Nat) : Int) := by decide
      rw [hc]
      exact ChainFrom.nil
  case hsz =>
    intro j h1 h2 bp hbp
    have h1' : 13 ≤ j := by
      have hfe : find_explicit 8001 = 13 := by rfl
      omega
    have h2' : j < 16 := h2
    interval_cases j
    · simp only [if_pos rfl] at hbp
      rcases List.mem_singleton.mp hbp with rfl
      rfl
    · simp only [if_neg (by omega : ¬ (14 = 13))] at hbp
      exact absurd hbp (List.not_mem_nil bp)
    · simp only [if_neg (by omega : ¬ (15 = 13))] at hbp
      exact absurd hbp (List.not_mem_nil bp)
  case hlen =>
    intro j h1 h2
    have h1' : 13 ≤ j := by
      have hfe : find_explicit 8001 = 13 := by rfl
      omega
    have h2' : j < 16 := h2
    interval_cases j
    · simp [fitState]
    · simp [fitState]
    · simp [fitState]

end Malloc
